import Mathlib

/-!
Verification of `codes/surface_code_generator.py`.

The script constructs rotated planar surface codes for a fixed list of
distances, extracts each code's stabilizer matrix, and writes it to a CSV
file with `np.savetxt(..., delimiter=",", fmt="%d")`.

The embedding below models:
* decimal integer formatting (`%d`) and CSV serialization (`np.savetxt`);
* a CSV parser, for round-trip statements;
* the external collaborator `qecsim.models.rotatedplanar.RotatedPlanarCode`
  (not part of the repository), modelled from the spec;
* a filesystem with explicit directories, so that statements about missing
  output directories and overwrites can be made;
* the driver loop of the `__main__` block, parameterized by the
  code-construction collaborator.
-/

namespace SurfaceCodeGen

/-- One decimal digit rendered as a character, as printf `%d` renders it. -/
def digitToChar : Nat → Char
  | 0 => '0'
  | 1 => '1'
  | 2 => '2'
  | 3 => '3'
  | 4 => '4'
  | 5 => '5'
  | 6 => '6'
  | 7 => '7'
  | 8 => '8'
  | 9 => '9'
  | _ => '?'

/-- Decimal value of a digit character. -/
def charToDigit (c : Char) : Nat := c.toNat - 48

/-- Fuel-driven rendering of a positive natural number in base 10, most
significant digit first.  `fmtNatAux fuel 0 = []`; with `n ≤ fuel` and
`0 < n` it yields the usual decimal numeral of `n`. -/
def fmtNatAux : Nat → Nat → List Char
  | 0, _ => []
  | _ + 1, 0 => []
  | fuel + 1, n + 1 => fmtNatAux fuel ((n + 1) / 10) ++ [digitToChar ((n + 1) % 10)]

/-- Decimal numeral of a natural number, as printf `%d` renders it. -/
def fmtNat (n : Nat) : List Char := if n = 0 then ['0'] else fmtNatAux n n

/-- Decimal numeral of an integer, as printf `%d` renders it. -/
def fmtInt (i : Int) : List Char :=
  if i < 0 then '-' :: fmtNat i.natAbs else fmtNat i.toNat

/-- One matrix row rendered as comma-separated `%d` fields, as
`np.savetxt(..., delimiter=",", fmt="%d")` renders it. -/
def fmtRow : List Int → List Char
  | [] => []
  | [v] => fmtInt v
  | v :: vs => fmtInt v ++ ',' :: fmtRow vs

/-- The full text written by `np.savetxt(path, m, delimiter=",", fmt="%d")`:
each row rendered as comma-separated `%d` fields and terminated by a
newline, no header line. -/
def savetxt : List (List Int) → List Char
  | [] => []
  | r :: rs => fmtRow r ++ '\n' :: savetxt rs

/-- Big-endian decimal parsing of a digit string. -/
def parseNat (cs : List Char) : Nat :=
  cs.foldl (fun a c => 10 * a + charToDigit c) 0

/-- Parse an optionally `-`-signed decimal integer. -/
def parseInt : List Char → Int
  | [] => 0
  | c :: rest => if c = '-' then -(parseNat rest : Int) else (parseNat (c :: rest) : Int)

/-- Split a character list at every occurrence of `sep` (the separators are
dropped); always returns at least one piece. -/
def splitOnC (sep : Char) : List Char → List (List Char)
  | [] => [[]]
  | c :: cs =>
    match splitOnC sep cs with
    | [] => [[c]]
    | p :: ps => if c = sep then [] :: p :: ps else (c :: p) :: ps

/-- Parse CSV text produced by `savetxt` back into an integer matrix: split
into newline-terminated lines, split each line at commas, parse each field
as an integer. -/
def parseMatrix (cs : List Char) : List (List Int) :=
  ((splitOnC '\n' cs).dropLast).map (fun line => (splitOnC ',' line).map parseInt)

deriving instance DecidableEq for Except

/-- Error taxonomy of the spec: parameter rejection by the collaborator,
missing output directory, filesystem write failure. -/
inductive PipelineError where
  | invalidParameterError
  | pathNotFoundError
  | writeError
deriving DecidableEq

/-- Handle returned by the code-construction collaborator, exposing the
`stabilizers` attribute. -/
structure CodeHandle where
  stabilizers : List (List Int)
deriving DecidableEq

/-- Modelled from the spec: `qecsim.models.rotatedplanar.RotatedPlanarCode`
is not part of the repository.  A plaquette index `(x, y)` is Z-type when
`x - y` is even, X-type otherwise. -/
def isZPlaquette (x y : Int) : Bool := (x - y) % 2 == 0

/-- Modelled from the spec: virtual plaquettes of the rotated planar
lattice sit outside the stabilizer set — X-type on the left/right boundary
columns, Z-type on the bottom/top boundary rows. -/
def isVirtualPlaquette (rows columns : Nat) (x y : Int) : Bool :=
  (!isZPlaquette x y && (x == -1 || x == (columns : Int) - 1)) ||
  (isZPlaquette x y && (y == -1 || y == (rows : Int) - 1))

/-- Plaquette coordinates `-1, 0, ..., n - 1` of an `n`-site axis. -/
def plaqCoordRange (n : Nat) : List Int :=
  (List.range (n + 1)).map (fun (i : Nat) => (i : Int) - 1)

/-- All candidate plaquette indices of the lattice, ordered by `y` then `x`. -/
def allPlaquetteIndices (rows columns : Nat) : List (Int × Int) :=
  (plaqCoordRange rows).flatMap (fun y => (plaqCoordRange columns).map (fun x => (x, y)))

/-- The non-virtual plaquette indices: these carry the stabilizer
generators. -/
def realPlaquetteIndices (rows columns : Nat) : List (Int × Int) :=
  (allPlaquetteIndices rows columns).filter
    (fun p => !isVirtualPlaquette rows columns p.1 p.2)

/-- Modelled from the spec: stabilizer plaquettes listed Z-type first, then
X-type, each group ordered by `y` then `x`. -/
def plaquetteIndices (rows columns : Nat) : List (Int × Int) :=
  (realPlaquetteIndices rows columns).filter (fun p => isZPlaquette p.1 p.2) ++
  (realPlaquetteIndices rows columns).filter (fun p => !isZPlaquette p.1 p.2)

/-- The qubit sites `(x, y)` with `0 ≤ x < columns`, `0 ≤ y < rows`,
ordered by `y` then `x`. -/
def siteIndices (rows columns : Nat) : List (Int × Int) :=
  (List.range rows).flatMap
    (fun (y : Nat) => (List.range columns).map (fun (x : Nat) => ((x : Int), (y : Int))))

/-- The four candidate sites of the plaquette at `(x, y)`. -/
def plaquetteSites (x y : Int) : List (Int × Int) :=
  [(x, y), (x + 1, y), (x, y + 1), (x + 1, y + 1)]

/-- Whether a site lies on the lattice. -/
def inSiteBounds (rows columns : Nat) (s : Int × Int) : Bool :=
  decide (0 ≤ s.1 ∧ s.1 ≤ (columns : Int) - 1 ∧ 0 ≤ s.2 ∧ s.2 ≤ (rows : Int) - 1)

/-- The sites a plaquette operator acts on: its candidate sites clipped to
the lattice (boundary plaquettes act on two sites). -/
def plaquetteSupport (rows columns : Nat) (x y : Int) : List (Int × Int) :=
  (plaquetteSites x y).filter (inSiteBounds rows columns)

/-- Modelled from the spec: one stabilizer generator in binary symplectic
form — the X-part bits over all sites followed by the Z-part bits over all
sites; an X-type (resp. Z-type) plaquette sets the X-part (resp. Z-part)
bit of each site in its support. -/
def stabilizerRow (rows columns : Nat) (p : Int × Int) : List Int :=
  ((siteIndices rows columns).map fun s =>
    if !isZPlaquette p.1 p.2 && (plaquetteSupport rows columns p.1 p.2).contains s
    then (1 : Int) else 0) ++
  ((siteIndices rows columns).map fun s =>
    if isZPlaquette p.1 p.2 && (plaquetteSupport rows columns p.1 p.2).contains s
    then (1 : Int) else 0)

/-- Modelled from the spec: the stabilizer generator matrix of the
`rows × columns` rotated planar surface code, one row per non-virtual
plaquette. -/
def rotatedPlanarStabilizers (rows columns : Nat) : List (List Int) :=
  (plaquetteIndices rows columns).map (stabilizerRow rows columns)

/-- Modelled from the spec: the collaborator capability
`build_surface_code` (`RotatedPlanarCode(rows, columns)`).  It rejects a
non-positive, even, or too-small dimension with `InvalidParameterError`,
and otherwise deterministically returns a handle whose `stabilizers`
attribute is the parity-check matrix. -/
def RotatedPlanarCode (rows columns : Int) : Except PipelineError CodeHandle :=
  if rows < 3 ∨ columns < 3 ∨ rows % 2 = 0 ∨ columns % 2 = 0 then
    .error .invalidParameterError
  else
    .ok ⟨rotatedPlanarStabilizers rows.toNat columns.toNat⟩

/-- Embedding of `generate_surface_code_pcm`, parameterized by the
code-construction collaborator: construct the code with both lattice
dimensions equal to `distance` and return its `stabilizers` attribute
unchanged. -/
def generate_surface_code_pcm (build : Int → Int → Except PipelineError CodeHandle)
    (distance : Int) : Except PipelineError (List (List Int)) :=
  (build distance distance).map CodeHandle.stabilizers

/-- The fixed distance list of the `__main__` block. -/
def distances : List Int := [3, 5, 7, 9, 11, 13, 15]

/-- The output path `pcm_matrices/distance_{d}_surface_code.csv`. -/
def outputPath (d : Int) : List Char :=
  "pcm_matrices/distance_".toList ++ fmtInt d ++ "_surface_code.csv".toList

/-- The directory component of a relative path: everything before the
first `/`. -/
def dirOf (p : List Char) : List Char := p.takeWhile (fun c => c != '/')

/-- A filesystem: a set of existing directories and a map from paths to
file contents. -/
structure FileSystem where
  dirs : List (List Char)
  files : List (List Char × List Char)
deriving DecidableEq

/-- Look a path up in the file map. -/
def getFile : List (List Char × List Char) → List Char → Option (List Char)
  | [], _ => none
  | (q, c) :: rest, p => if q = p then some c else getFile rest p

/-- Create or overwrite the file at a path. -/
def setFile : List (List Char × List Char) → List Char → List Char →
    List (List Char × List Char)
  | [], p, c => [(p, c)]
  | (q, d) :: rest, p, c => if q = p then (p, c) :: rest else (q, d) :: setFile rest p c

/-- Modelled from the spec: `np.savetxt` opens the target path for
writing — it does not create intermediate directories, so it fails with
`PathNotFoundError` when the target directory is absent; otherwise it
creates or truncates the file with the serialized matrix text. -/
def np_savetxt (fs : FileSystem) (path : List Char) (m : List (List Int)) :
    Except PipelineError FileSystem :=
  if dirOf path ∈ fs.dirs then
    .ok { fs with files := setFile fs.files path (savetxt m) }
  else
    .error .pathNotFoundError

/-- One iteration of the driver loop: construct the code, extract the
matrix, write it to the distance's output path. -/
def processDistance (build : Int → Int → Except PipelineError CodeHandle)
    (fs : FileSystem) (d : Int) : Except PipelineError FileSystem :=
  match generate_surface_code_pcm build d with
  | .error e => .error e
  | .ok a => np_savetxt fs (outputPath d) a

/-- The driver loop of the `__main__` block: process each distance in
order; on the first failure the run aborts, leaving the filesystem as it
was after the last successful iteration. -/
def driverLoop (build : Int → Int → Except PipelineError CodeHandle) :
    List Int → FileSystem → FileSystem × Option PipelineError
  | [], fs => (fs, none)
  | d :: ds, fs =>
    match processDistance build fs d with
    | .error e => (fs, some e)
    | .ok fs2 => driverLoop build ds fs2

/-- The whole program: the driver loop over the fixed distance list. -/
def runDriver (build : Int → Int → Except PipelineError CodeHandle)
    (fs : FileSystem) : FileSystem × Option PipelineError :=
  driverLoop build distances fs

/-! ### Decimal formatting lemmas -/

theorem digitToChar_isDigit {d : Nat} (h : d < 10) : (digitToChar d).isDigit = true := by
  interval_cases d <;> decide

theorem charToDigit_digitToChar {d : Nat} (h : d < 10) : charToDigit (digitToChar d) = d := by
  interval_cases d <;> decide

theorem mem_fmtNatAux_isDigit :
    ∀ (fuel n : Nat), ∀ c ∈ fmtNatAux fuel n, c.isDigit = true := by
  intro fuel
  induction fuel with
  | zero => intro n c hc; simp [fmtNatAux] at hc
  | succ fuel ih =>
    intro n c hc
    cases n with
    | zero => simp [fmtNatAux] at hc
    | succ m =>
      simp only [fmtNatAux, List.mem_append, List.mem_singleton] at hc
      rcases hc with hc | hc
      · exact ih _ c hc
      · subst hc
        exact digitToChar_isDigit (Nat.mod_lt _ (by omega))

theorem fmtNatAux_ne_nil {fuel n : Nat} (hn : 0 < n) (hfuel : n ≤ fuel) :
    fmtNatAux fuel n ≠ [] := by
  cases fuel with
  | zero => omega
  | succ fuel =>
    cases n with
    | zero => omega
    | succ m => simp [fmtNatAux]

theorem parseNat_append_digit (l : List Char) (c : Char) :
    parseNat (l ++ [c]) = 10 * parseNat l + charToDigit c := by
  simp [parseNat, List.foldl_append]

theorem parseNat_fmtNatAux : ∀ (fuel n : Nat), n ≤ fuel → parseNat (fmtNatAux fuel n) = n := by
  intro fuel
  induction fuel with
  | zero =>
    intro n hn
    have : n = 0 := by omega
    subst this
    rfl
  | succ fuel ih =>
    intro n hn
    cases n with
    | zero => rfl
    | succ m =>
      have hdiv : (m + 1) / 10 ≤ fuel := by
        have := Nat.div_lt_self (Nat.succ_pos m) (by omega : 1 < 10)
        omega
      simp only [fmtNatAux, parseNat_append_digit, ih _ hdiv,
        charToDigit_digitToChar (Nat.mod_lt _ (by omega : 0 < 10))]
      omega

theorem parseNat_fmtNat (n : Nat) : parseNat (fmtNat n) = n := by
  by_cases h : n = 0
  · subst h; rfl
  · simp only [fmtNat, if_neg h]
    exact parseNat_fmtNatAux n n le_rfl

theorem fmtNat_ne_nil (n : Nat) : fmtNat n ≠ [] := by
  by_cases h : n = 0
  · subst h; simp [fmtNat]
  · simp only [fmtNat, if_neg h]
    exact fmtNatAux_ne_nil (by omega) le_rfl

theorem mem_fmtNat_isDigit {n : Nat} : ∀ c ∈ fmtNat n, c.isDigit = true := by
  intro c hc
  by_cases h : n = 0
  · subst h; simp [fmtNat] at hc; subst hc; decide
  · simp only [fmtNat, if_neg h] at hc
    exact mem_fmtNatAux_isDigit n n c hc

theorem isDigit_ne {c : Char} (h : c.isDigit = true) : c ≠ ',' ∧ c ≠ '\n' ∧ c ≠ '-' := by
  refine ⟨?_, ?_, ?_⟩ <;> (intro he; subst he; simp at h)

theorem mem_fmtInt {i : Int} : ∀ c ∈ fmtInt i, c.isDigit = true ∨ c = '-' := by
  intro c hc
  by_cases h : i < 0
  · simp only [fmtInt, if_pos h, List.mem_cons] at hc
    rcases hc with hc | hc
    · right; exact hc
    · left; exact mem_fmtNat_isDigit c hc
  · simp only [fmtInt, if_neg h] at hc
    left; exact mem_fmtNat_isDigit c hc

theorem mem_fmtInt_of_nonneg {i : Int} (hi : 0 ≤ i) : ∀ c ∈ fmtInt i, c.isDigit = true := by
  intro c hc
  simp only [fmtInt, if_neg (by omega : ¬i < 0)] at hc
  exact mem_fmtNat_isDigit c hc

theorem fmtInt_ne_nil (i : Int) : fmtInt i ≠ [] := by
  by_cases h : i < 0
  · simp [fmtInt, if_pos h]
  · simp only [fmtInt, if_neg h]
    exact fmtNat_ne_nil _

theorem parseInt_fmtInt (i : Int) : parseInt (fmtInt i) = i := by
  by_cases h : i < 0
  · have h1 : parseInt (fmtInt i) = -((parseNat (fmtNat i.natAbs) : Nat) : Int) := by
      simp [fmtInt, if_pos h, parseInt]
    rw [h1, parseNat_fmtNat]
    omega
  · simp only [fmtInt, if_neg h]
    obtain ⟨c, rest, hcr⟩ := List.exists_cons_of_ne_nil (fmtNat_ne_nil i.toNat)
    have hdig : c.isDigit = true := by
      apply mem_fmtNat_isDigit (n := i.toNat)
      rw [hcr]; exact List.mem_cons_self _ _
    rw [hcr]
    simp only [parseInt, if_neg (isDigit_ne hdig).2.2]
    rw [← hcr, parseNat_fmtNat]
    omega

/-! ### Row formatting lemmas -/

theorem mem_fmtRow : ∀ (r : List Int), ∀ c ∈ fmtRow r, c.isDigit = true ∨ c = '-' ∨ c = ',' := by
  intro r
  induction r with
  | nil => intro c hc; simp [fmtRow] at hc
  | cons v vs ih =>
    intro c hc
    cases vs with
    | nil =>
      simp only [fmtRow] at hc
      rcases mem_fmtInt c hc with h | h
      · exact Or.inl h
      · exact Or.inr (Or.inl h)
    | cons w ws =>
      simp only [fmtRow, List.mem_append, List.mem_cons] at hc
      rcases hc with hc | hc | hc
      · rcases mem_fmtInt c hc with h | h
        · exact Or.inl h
        · exact Or.inr (Or.inl h)
      · exact Or.inr (Or.inr hc)
      · rcases ih c hc with h | h | h
        · exact Or.inl h
        · exact Or.inr (Or.inl h)
        · exact Or.inr (Or.inr h)

theorem mem_fmtRow_of_nonneg :
    ∀ (r : List Int), (∀ v ∈ r, 0 ≤ v) → ∀ c ∈ fmtRow r, c.isDigit = true ∨ c = ',' := by
  intro r
  induction r with
  | nil => intro _ c hc; simp [fmtRow] at hc
  | cons v vs ih =>
    intro hr c hc
    cases vs with
    | nil =>
      simp only [fmtRow] at hc
      exact Or.inl (mem_fmtInt_of_nonneg (hr v (List.mem_cons_self _ _)) c hc)
    | cons w ws =>
      simp only [fmtRow, List.mem_append, List.mem_cons] at hc
      rcases hc with hc | hc | hc
      · exact Or.inl (mem_fmtInt_of_nonneg (hr v (List.mem_cons_self _ _)) c hc)
      · exact Or.inr hc
      · exact ih (fun u hu => hr u (List.mem_cons_of_mem _ hu)) c hc

theorem newline_not_mem_fmtRow (r : List Int) : '\n' ∉ fmtRow r := by
  intro hc
  rcases mem_fmtRow r _ hc with h | h | h
  · simp at h
  · simp at h
  · simp at h

/-! ### Splitting lemmas -/

theorem splitOnC_ne_nil (sep : Char) : ∀ (l : List Char), splitOnC sep l ≠ [] := by
  intro l
  induction l with
  | nil => simp [splitOnC]
  | cons c cs ih =>
    simp only [splitOnC]
    rcases hs : splitOnC sep cs with _ | ⟨p, ps⟩
    · exact absurd hs ih
    · by_cases hc : c = sep <;> simp [hc]

theorem splitOnC_of_forall_ne (sep : Char) :
    ∀ (l : List Char), (∀ c ∈ l, c ≠ sep) → splitOnC sep l = [l] := by
  intro l
  induction l with
  | nil => intro _; rfl
  | cons c cs ih =>
    intro h
    have hcs : splitOnC sep cs = [cs] := ih (fun x hx => h x (List.mem_cons_of_mem _ hx))
    simp only [splitOnC, hcs]
    rw [if_neg (h c (List.mem_cons_self _ _))]

theorem splitOnC_append (sep : Char) :
    ∀ (l₁ l₂ : List Char), (∀ c ∈ l₁, c ≠ sep) →
      splitOnC sep (l₁ ++ sep :: l₂) = l₁ :: splitOnC sep l₂ := by
  intro l₁
  induction l₁ with
  | nil =>
    intro l₂ _
    simp only [List.nil_append, splitOnC]
    rcases hs : splitOnC sep l₂ with _ | ⟨p, ps⟩
    · exact absurd hs (splitOnC_ne_nil sep l₂)
    · simp
  | cons c cs ih =>
    intro l₂ h
    have hcs := ih l₂ (fun x hx => h x (List.mem_cons_of_mem _ hx))
    simp only [List.cons_append, splitOnC, List.append_eq, hcs]
    rw [if_neg (h c (List.mem_cons_self _ _))]

theorem splitOnC_savetxt (m : List (List Int)) :
    splitOnC '\n' (savetxt m) = m.map fmtRow ++ [[]] := by
  induction m with
  | nil => rfl
  | cons r rs ih =>
    have h : ∀ c ∈ fmtRow r, c ≠ '\n' := by
      intro c hc he; subst he; exact newline_not_mem_fmtRow r hc
    simp only [savetxt, splitOnC_append '\n' (fmtRow r) (savetxt rs) h, ih, List.map_cons,
      List.cons_append]

theorem comma_not_mem_fmtInt (i : Int) : ∀ c ∈ fmtInt i, c ≠ ',' := by
  intro c hc he
  subst he
  rcases mem_fmtInt (i := i) ',' hc with h | h
  · simp at h
  · simp at h

theorem splitOnC_fmtRow : ∀ (r : List Int), r ≠ [] →
    splitOnC ',' (fmtRow r) = r.map fmtInt := by
  intro r
  induction r with
  | nil => intro h; exact absurd rfl h
  | cons v vs ih =>
    intro _
    cases vs with
    | nil =>
      simp only [fmtRow, List.map_cons, List.map_nil]
      exact splitOnC_of_forall_ne ',' (fmtInt v) (comma_not_mem_fmtInt v)
    | cons w ws =>
      simp only [fmtRow, splitOnC_append ',' (fmtInt v) _ (comma_not_mem_fmtInt v),
        ih (by simp), List.map_cons]

/-! ### Claims C3 and C9: the serializer -/

/-- C3: the serializer writes plain-text comma-separated integer values:
with non-negative integer entries every character of the output is a
digit, a comma, or a newline (so no decimal points and no scientific
notation); there is one newline-terminated line per matrix row and no
header line; and on a rectangular matrix every line carries the same
number of comma-separated fields. -/
theorem spec_C3 (m : List (List Int)) (n : Nat) (hn : 0 < n)
    (hrect : ∀ r ∈ m, r.length = n)
    (hnonneg : ∀ r ∈ m, ∀ v ∈ r, 0 ≤ v) :
    (∀ c ∈ savetxt m, c.isDigit = true ∨ c = ',' ∨ c = '\n') ∧
    (savetxt m).count '\n' = m.length ∧
    (∀ r ∈ m, (splitOnC ',' (fmtRow r)).length = n) := by
  refine ⟨?_, ?_, ?_⟩
  · induction m with
    | nil => intro c hc; simp [savetxt] at hc
    | cons r rs ih =>
      intro c hc
      simp only [savetxt, List.mem_append, List.mem_cons] at hc
      rcases hc with hc | hc | hc
      · rcases mem_fmtRow_of_nonneg r (hnonneg r (List.mem_cons_self _ _)) c hc with h | h
        · exact Or.inl h
        · exact Or.inr (Or.inl h)
      · exact Or.inr (Or.inr hc)
      · exact ih (fun q hq => hrect q (List.mem_cons_of_mem _ hq))
          (fun q hq => hnonneg q (List.mem_cons_of_mem _ hq)) c hc
  · induction m with
    | nil => rfl
    | cons r rs ih =>
      simp only [savetxt, List.count_append, List.count_cons, List.length_cons]
      rw [List.count_eq_zero.mpr (newline_not_mem_fmtRow r)]
      rw [ih (fun q hq => hrect q (List.mem_cons_of_mem _ hq))
          (fun q hq => hnonneg q (List.mem_cons_of_mem _ hq))]
      simp
  · intro r hr
    have hne : r ≠ [] := by
      intro he
      have := hrect r hr
      subst he
      simp at this
      omega
    rw [splitOnC_fmtRow r hne, List.length_map]
    exact hrect r hr

/-- Witness for C3 at the concrete matrix `[[0, 1], [1, 0]]`. -/
theorem spec_C3_witness :
    (0 < 2 ∧ (∀ r ∈ [[(0 : Int), 1], [1, 0]], r.length = 2) ∧
      (∀ r ∈ [[(0 : Int), 1], [1, 0]], ∀ v ∈ r, 0 ≤ v)) ∧
    ((∀ c ∈ savetxt [[(0 : Int), 1], [1, 0]], c.isDigit = true ∨ c = ',' ∨ c = '\n') ∧
      (savetxt [[(0 : Int), 1], [1, 0]]).count '\n' = ([[(0 : Int), 1], [1, 0]]).length ∧
      (∀ r ∈ [[(0 : Int), 1], [1, 0]], (splitOnC ',' (fmtRow r)).length = 2)) :=
  ⟨⟨by decide, by decide, by decide⟩,
    spec_C3 [[(0 : Int), 1], [1, 0]] 2 (by decide) (by decide) (by decide)⟩

/-- C9: round-trip — parsing the CSV text produced by the serializer
reproduces exactly the matrix that was serialized, with no extra or
missing rows or columns. -/
theorem spec_C9 (m : List (List Int)) (h : ∀ r ∈ m, r ≠ []) :
    parseMatrix (savetxt m) = m := by
  unfold parseMatrix
  rw [splitOnC_savetxt, List.dropLast_concat, List.map_map]
  have hrow : ∀ r ∈ m, ((fun line => (splitOnC ',' line).map parseInt) ∘ fmtRow) r = id r := by
    intro r hr
    simp only [Function.comp_apply, id]
    rw [splitOnC_fmtRow r (h r hr), List.map_map]
    have hcell : ∀ v ∈ r, (parseInt ∘ fmtInt) v = id v := by
      intro v _
      simp only [Function.comp_apply, id, parseInt_fmtInt]
    rw [List.map_congr_left hcell, List.map_id]
  rw [List.map_congr_left hrow, List.map_id]

/-- Witness for C9 at the concrete matrix `[[1, 22, -3], [0, 4, 5]]`. -/
theorem spec_C9_witness :
    (∀ r ∈ [[(1 : Int), 22, -3], [0, 4, 5]], r ≠ []) ∧
    parseMatrix (savetxt [[(1 : Int), 22, -3], [0, 4, 5]]) = [[(1 : Int), 22, -3], [0, 4, 5]] :=
  ⟨by decide, spec_C9 [[(1 : Int), 22, -3], [0, 4, 5]] (by decide)⟩

/-! ### Filesystem lemmas -/

theorem getFile_setFile (l : List (List Char × List Char)) (p c q) :
    getFile (setFile l p c) q = if q = p then some c else getFile l q := by
  induction l with
  | nil =>
    simp only [setFile, getFile]
    by_cases h : q = p
    · subst h
      simp
    · have hpq : ¬p = q := fun he => h he.symm
      simp [h, hpq]
  | cons a rest ih =>
    obtain ⟨ap, ac⟩ := a
    by_cases hap : ap = p
    · subst hap
      simp only [setFile, if_pos rfl, getFile]
      by_cases hq : q = ap
      · subst hq
        simp
      · have hpq : ¬ap = q := fun he => hq he.symm
        simp [hq, hpq]
    · simp only [setFile, if_neg hap, getFile, ih]
      by_cases hq : ap = q
      · subst hq
        simp [hap]
      · simp [hq]

theorem setFile_of_getFile_eq :
    ∀ (l : List (List Char × List Char)) (p c), getFile l p = some c → setFile l p c = l := by
  intro l
  induction l with
  | nil => intro p c h; simp [getFile] at h
  | cons a rest ih =>
    intro p c h
    obtain ⟨ap, ac⟩ := a
    by_cases hap : ap = p
    · subst hap
      simp [getFile] at h
      simp [setFile, h]
    · simp only [getFile, if_neg hap] at h
      simp [setFile, hap, ih p c h]

/-! ### Driver lemmas -/

theorem processDistance_of_error (build : Int → Int → Except PipelineError CodeHandle)
    (fs : FileSystem) (d : Int) (e : PipelineError)
    (hg : generate_surface_code_pcm build d = .error e) :
    processDistance build fs d = .error e := by
  unfold processDistance
  rw [hg]

theorem processDistance_of_gen_ok (build : Int → Int → Except PipelineError CodeHandle)
    (fs : FileSystem) (d : Int) (a : List (List Int))
    (hg : generate_surface_code_pcm build d = .ok a) :
    processDistance build fs d = np_savetxt fs (outputPath d) a := by
  unfold processDistance
  rw [hg]

theorem driverLoop_nil (build : Int → Int → Except PipelineError CodeHandle)
    (fs : FileSystem) : driverLoop build [] fs = (fs, none) := rfl

theorem driverLoop_cons_of_error (build : Int → Int → Except PipelineError CodeHandle)
    (d : Int) (ds : List Int) (fs : FileSystem) (e : PipelineError)
    (hp : processDistance build fs d = .error e) :
    driverLoop build (d :: ds) fs = (fs, some e) := by
  unfold driverLoop
  rw [hp]

theorem driverLoop_cons_of_ok (build : Int → Int → Except PipelineError CodeHandle)
    (d : Int) (ds : List Int) (fs fs2 : FileSystem)
    (hp : processDistance build fs d = .ok fs2) :
    driverLoop build (d :: ds) fs = driverLoop build ds fs2 := by
  rw [driverLoop, hp]

theorem processDistance_ok (build : Int → Int → Except PipelineError CodeHandle)
    (fs : FileSystem) (d : Int) (fs2 : FileSystem)
    (h : processDistance build fs d = .ok fs2) :
    ∃ a, generate_surface_code_pcm build d = .ok a ∧
      dirOf (outputPath d) ∈ fs.dirs ∧
      fs2 = { fs with files := setFile fs.files (outputPath d) (savetxt a) } := by
  rcases hg : generate_surface_code_pcm build d with e | a
  · rw [processDistance_of_error build fs d e hg] at h
    simp at h
  · rw [processDistance_of_gen_ok build fs d a hg] at h
    by_cases hdir : dirOf (outputPath d) ∈ fs.dirs
    · unfold np_savetxt at h
      rw [if_pos hdir] at h
      injection h with h2
      subst h2
      exact ⟨a, rfl, hdir, rfl⟩
    · unfold np_savetxt at h
      rw [if_neg hdir] at h
      simp at h

theorem driverLoop_ok (build : Int → Int → Except PipelineError CodeHandle) :
    ∀ (ds : List Int) (fs₀ fs₁ : FileSystem),
      driverLoop build ds fs₀ = (fs₁, none) →
      fs₁.dirs = fs₀.dirs ∧
      (∀ p, p ∉ ds.map outputPath → getFile fs₁.files p = getFile fs₀.files p) ∧
      ((ds.map outputPath).Nodup →
        ∀ d ∈ ds, ∃ a, generate_surface_code_pcm build d = .ok a ∧
          getFile fs₁.files (outputPath d) = some (savetxt a)) := by
  intro ds
  induction ds with
  | nil =>
    intro fs₀ fs₁ h
    simp only [driverLoop, Prod.mk.injEq] at h
    obtain ⟨rfl, -⟩ := h
    exact ⟨rfl, fun p _ => rfl, fun _ d hd => absurd hd (List.not_mem_nil d)⟩
  | cons d ds ih =>
    intro fs₀ fs₁ h
    rcases hp : processDistance build fs₀ d with e | fs2
    · rw [driverLoop_cons_of_error _ _ _ _ _ hp] at h
      simp at h
    · rw [driverLoop_cons_of_ok _ _ _ _ _ hp] at h
      obtain ⟨hdirs, huntouched, hfiles⟩ := ih fs2 fs₁ h
      obtain ⟨a, hg, hdir, rfl⟩ := processDistance_ok build fs₀ d fs2 hp
      refine ⟨hdirs, ?_, ?_⟩
      · intro p hpnot
        simp only [List.map_cons, List.mem_cons, not_or] at hpnot
        rw [huntouched p hpnot.2, getFile_setFile, if_neg hpnot.1]
      · intro hnodup
        simp only [List.map_cons, List.nodup_cons] at hnodup
        intro d2 hd2
        rcases List.mem_cons.mp hd2 with rfl | hd2
        · refine ⟨a, hg, ?_⟩
          rw [huntouched _ hnodup.1, getFile_setFile, if_pos rfl]
        · exact hfiles hnodup.2 d2 hd2

/-- Driver failure propagation: a successful prefix followed by a failing
step aborts the run with the filesystem as the prefix left it. -/
theorem driverLoop_fail (build : Int → Int → Except PipelineError CodeHandle) :
    ∀ (pre : List Int) (d : Int) (post : List Int) (fs₀ fs₁ : FileSystem)
      (e : PipelineError),
      driverLoop build pre fs₀ = (fs₁, none) →
      processDistance build fs₁ d = .error e →
      driverLoop build (pre ++ d :: post) fs₀ = (fs₁, some e) := by
  intro pre
  induction pre with
  | nil =>
    intro d post fs₀ fs₁ e hpre hfail
    simp only [driverLoop, Prod.mk.injEq] at hpre
    obtain ⟨rfl, -⟩ := hpre
    rw [List.nil_append, driverLoop_cons_of_error _ _ _ _ _ hfail]
  | cons p pre ih =>
    intro d post fs₀ fs₁ e hpre hfail
    rcases hp : processDistance build fs₀ p with e2 | fs2
    · rw [driverLoop_cons_of_error _ _ _ _ _ hp] at hpre
      simp at hpre
    · rw [driverLoop_cons_of_ok _ _ _ _ _ hp] at hpre
      have := ih d post fs2 fs₁ e hpre hfail
      simp only [List.cons_append, driverLoop, hp]
      exact this

/-- Running the loop a second time from a state it produced rewrites every
file with identical content and changes nothing. -/
theorem driverLoop_idem (build : Int → Int → Except PipelineError CodeHandle) :
    ∀ (ds : List Int) (fs₀ fs₁ : FileSystem),
      (ds.map outputPath).Nodup →
      driverLoop build ds fs₀ = (fs₁, none) →
      driverLoop build ds fs₁ = (fs₁, none) := by
  intro ds
  induction ds with
  | nil =>
    intro fs₀ fs₁ _ h
    simp only [driverLoop, Prod.mk.injEq] at h
    obtain ⟨rfl, -⟩ := h
    rfl
  | cons d ds ih =>
    intro fs₀ fs₁ hnodup h
    simp only [List.map_cons, List.nodup_cons] at hnodup
    rcases hp : processDistance build fs₀ d with e | fs2
    · rw [driverLoop_cons_of_error _ _ _ _ _ hp] at h
      simp at h
    · rw [driverLoop_cons_of_ok _ _ _ _ _ hp] at h
      obtain ⟨a, hg, hdir, rfl⟩ := processDistance_ok build fs₀ d fs2 hp
      obtain ⟨hdirs, huntouched, -⟩ := driverLoop_ok build ds _ fs₁ h
      have hfile : getFile fs₁.files (outputPath d) = some (savetxt a) := by
        rw [huntouched _ hnodup.1, getFile_setFile, if_pos rfl]
      have hstep : processDistance build fs₁ d = .ok fs₁ := by
        rw [processDistance_of_gen_ok _ _ _ _ hg]
        unfold np_savetxt
        rw [if_pos (by rw [hdirs]; exact hdir)]
        rw [setFile_of_getFile_eq fs₁.files (outputPath d) (savetxt a) hfile]
      rw [driverLoop_cons_of_ok _ _ _ _ _ hstep]
      exact ih _ fs₁ hnodup.2 h

/-! ### Witness ingredients -/

/-- A trivial deterministic collaborator used in witnesses. -/
def trivialBuild : Int → Int → Except PipelineError CodeHandle :=
  fun _ _ => .ok ⟨[[0, 1]]⟩

/-- A collaborator that fails at distance 5, used in witnesses. -/
def failingBuild : Int → Int → Except PipelineError CodeHandle :=
  fun r _ => if r = 5 then .error .writeError else .ok ⟨[[0, 1]]⟩

/-- A filesystem in which the output directory exists. -/
def initialFS : FileSystem := ⟨["pcm_matrices".toList], []⟩

/-- A filesystem with no directories at all. -/
def emptyDirFS : FileSystem := ⟨[], []⟩

/-! ### Claims about the driver -/

/-- C1: the driver iterates exactly the distances 3, 5, 7, 9, 11, 13, 15
in ascending order and, on a successful run, has constructed the code for
each distance, extracted its stabilizer matrix, and written its serialized
text to `pcm_matrices/distance_<d>_surface_code.csv` — seven distinct
files, and no other path is touched. -/
theorem spec_C1 (build : Int → Int → Except PipelineError CodeHandle)
    (fs₀ fs₁ : FileSystem)
    (h : driverLoop build distances fs₀ = (fs₁, none)) :
    distances = [3, 5, 7, 9, 11, 13, 15] ∧
    List.Pairwise (· < ·) distances ∧
    distances.map outputPath =
      ["pcm_matrices/distance_3_surface_code.csv".toList,
       "pcm_matrices/distance_5_surface_code.csv".toList,
       "pcm_matrices/distance_7_surface_code.csv".toList,
       "pcm_matrices/distance_9_surface_code.csv".toList,
       "pcm_matrices/distance_11_surface_code.csv".toList,
       "pcm_matrices/distance_13_surface_code.csv".toList,
       "pcm_matrices/distance_15_surface_code.csv".toList] ∧
    (distances.map outputPath).Nodup ∧
    (∀ d ∈ distances, ∃ a, generate_surface_code_pcm build d = .ok a ∧
       getFile fs₁.files (outputPath d) = some (savetxt a)) ∧
    (∀ p, p ∉ distances.map outputPath → getFile fs₁.files p = getFile fs₀.files p) := by
  obtain ⟨-, huntouched, hfiles⟩ := driverLoop_ok build distances fs₀ fs₁ h
  exact ⟨rfl, by decide, by decide, by decide, hfiles (by decide), huntouched⟩

/-- Witness for C1: a concrete successful run with a stub collaborator. -/
theorem spec_C1_witness :
    driverLoop trivialBuild distances initialFS =
      ((driverLoop trivialBuild distances initialFS).fst, none) ∧
    (∀ d ∈ distances, ∃ a, generate_surface_code_pcm trivialBuild d = .ok a ∧
       getFile ((driverLoop trivialBuild distances initialFS).fst).files (outputPath d) =
         some (savetxt a)) :=
  ⟨by decide, (spec_C1 trivialBuild initialFS
      ((driverLoop trivialBuild distances initialFS).fst) (by decide)).2.2.2.2.1⟩

/-- C2: `generate_surface_code_pcm` constructs the code with both lattice
dimensions equal to the distance and returns the constructed handle's
`stabilizers` attribute unchanged; a construction error propagates with no
validation or recovery of its own. -/
theorem spec_C2 (build : Int → Int → Except PipelineError CodeHandle) (d : Int) :
    (∀ h, build d d = .ok h → generate_surface_code_pcm build d = .ok h.stabilizers) ∧
    (∀ e, build d d = .error e → generate_surface_code_pcm build d = .error e) := by
  constructor
  · intro h hb
    rw [generate_surface_code_pcm, hb]
    rfl
  · intro e hb
    rw [generate_surface_code_pcm, hb]
    rfl

/-- Witness for C2 at the stub collaborator and distance 3. -/
theorem spec_C2_witness :
    trivialBuild 3 3 = .ok ⟨[[0, 1]]⟩ ∧
    generate_surface_code_pcm trivialBuild 3 = .ok [[0, 1]] :=
  ⟨rfl, (spec_C2 trivialBuild 3).1 ⟨[[0, 1]]⟩ rfl⟩

/-- C5: an invalid distance (even, or below 3 — so 0, 2, and all negative
values) is rejected by the collaborator with `InvalidParameterError`; the
system does not catch it, and no output file is written for that distance.
(The collaborator is modelled from the spec.) -/
theorem spec_C5 (d : Int) (hd : d % 2 = 0 ∨ d < 3) (fs : FileSystem) :
    RotatedPlanarCode d d = .error .invalidParameterError ∧
    generate_surface_code_pcm RotatedPlanarCode d = .error .invalidParameterError ∧
    processDistance RotatedPlanarCode fs d = .error .invalidParameterError ∧
    driverLoop RotatedPlanarCode [d] fs = (fs, some .invalidParameterError) := by
  have hb : RotatedPlanarCode d d = .error .invalidParameterError := by
    unfold RotatedPlanarCode
    rw [if_pos (by omega)]
  have hg : generate_surface_code_pcm RotatedPlanarCode d = .error .invalidParameterError := by
    rw [generate_surface_code_pcm, hb]
    rfl
  have hpd : processDistance RotatedPlanarCode fs d = .error .invalidParameterError :=
    processDistance_of_error _ _ _ _ hg
  exact ⟨hb, hg, hpd, by rw [driverLoop_cons_of_error _ _ _ _ _ hpd]⟩

/-- Witness for C5 at the invalid distance 2. -/
theorem spec_C5_witness :
    ((2 : Int) % 2 = 0 ∨ (2 : Int) < 3) ∧
    (RotatedPlanarCode 2 2 = .error .invalidParameterError ∧
     generate_surface_code_pcm RotatedPlanarCode 2 = .error .invalidParameterError ∧
     processDistance RotatedPlanarCode initialFS 2 = .error .invalidParameterError ∧
     driverLoop RotatedPlanarCode [2] initialFS = (initialFS, some .invalidParameterError)) :=
  ⟨Or.inl (by decide), spec_C5 2 (Or.inl (by decide)) initialFS⟩

/-- C6: a failing step is not caught or retried: the run aborts there with
the failing step's error, later distances are not attempted (the final
filesystem is exactly the one the successful prefix produced), and files
already written for earlier distances are still present. -/
theorem spec_C6 (build : Int → Int → Except PipelineError CodeHandle)
    (pre : List Int) (d : Int) (post : List Int) (fs₀ fs₁ : FileSystem)
    (e : PipelineError)
    (hpre : driverLoop build pre fs₀ = (fs₁, none))
    (hfail : processDistance build fs₁ d = .error e) :
    driverLoop build (pre ++ d :: post) fs₀ = (fs₁, some e) ∧
    ((pre.map outputPath).Nodup →
      ∀ d2 ∈ pre, ∃ a, generate_surface_code_pcm build d2 = .ok a ∧
        getFile fs₁.files (outputPath d2) = some (savetxt a)) :=
  ⟨driverLoop_fail build pre d post fs₀ fs₁ e hpre hfail,
   fun hnodup => (driverLoop_ok build pre fs₀ fs₁ hpre).2.2 hnodup⟩

/-- Witness for C6: a collaborator failing at distance 5 aborts the run
`[3, 5, 7]` after the iteration for distance 3. -/
theorem spec_C6_witness :
    (driverLoop failingBuild [3] initialFS =
       ((driverLoop failingBuild [3] initialFS).fst, none) ∧
     processDistance failingBuild ((driverLoop failingBuild [3] initialFS).fst) 5 =
       .error .writeError) ∧
    driverLoop failingBuild ([3] ++ 5 :: [7]) initialFS =
      ((driverLoop failingBuild [3] initialFS).fst, some .writeError) :=
  ⟨⟨by decide, by decide⟩,
   (spec_C6 failingBuild [3] 5 [7] initialFS
      ((driverLoop failingBuild [3] initialFS).fst) .writeError
      (by decide) (by decide)).1⟩

/-- C7: the serializer does not create intermediate directories — with the
target directory absent it fails with `PathNotFoundError` and writes
nothing; a successful write never adds a directory; and a driver run whose
output directory is absent writes no file for the distance and aborts.
(Filesystem behavior of `np.savetxt` is modelled from the spec.) -/
theorem spec_C7 :
    (∀ (fs : FileSystem) (path : List Char) (m : List (List Int)),
       dirOf path ∉ fs.dirs → np_savetxt fs path m = .error .pathNotFoundError) ∧
    (∀ (fs : FileSystem) (path : List Char) (m : List (List Int)) (fs2 : FileSystem),
       np_savetxt fs path m = .ok fs2 →
         fs2.dirs = fs.dirs ∧ fs2.files = setFile fs.files path (savetxt m)) ∧
    (∀ (build : Int → Int → Except PipelineError CodeHandle) (fs : FileSystem)
       (d : Int) (ds : List Int) (a : List (List Int)),
       dirOf (outputPath d) ∉ fs.dirs →
       generate_surface_code_pcm build d = .ok a →
       driverLoop build (d :: ds) fs = (fs, some .pathNotFoundError)) := by
  refine ⟨?_, ?_, ?_⟩
  · intro fs path m hdir
    unfold np_savetxt
    rw [if_neg hdir]
  · intro fs path m fs2 h
    by_cases hdir : dirOf path ∈ fs.dirs
    · unfold np_savetxt at h
      rw [if_pos hdir] at h
      injection h with h2
      subst h2
      exact ⟨rfl, rfl⟩
    · unfold np_savetxt at h
      rw [if_neg hdir] at h
      simp at h
  · intro build fs d ds a hdir hg
    have hpd : processDistance build fs d = .error .pathNotFoundError := by
      rw [processDistance_of_gen_ok _ _ _ _ hg]
      unfold np_savetxt
      rw [if_neg hdir]
    rw [driverLoop_cons_of_error _ _ _ _ _ hpd]

/-- Witness for C7: with no `pcm_matrices` directory the write fails and
the run `[3, 5]` aborts immediately with nothing written. -/
theorem spec_C7_witness :
    (dirOf (outputPath 3) ∉ emptyDirFS.dirs ∧
     np_savetxt emptyDirFS (outputPath 3) [[0, 1]] = .error .pathNotFoundError) ∧
    driverLoop trivialBuild [3, 5] emptyDirFS = (emptyDirFS, some .pathNotFoundError) :=
  ⟨⟨by decide, spec_C7.1 emptyDirFS (outputPath 3) [[0, 1]] (by decide)⟩,
   spec_C7.2.2 trivialBuild emptyDirFS 3 [5] [[0, 1]] (by decide) (by decide)⟩

/-- C8: with a deterministic collaborator the run is idempotent — a second
full driver run from the state the first produced succeeds, rewrites each
distance's file with identical content, and leaves the filesystem exactly
as the first run left it. -/
theorem spec_C8 (build : Int → Int → Except PipelineError CodeHandle)
    (fs₀ fs₁ : FileSystem)
    (h : driverLoop build distances fs₀ = (fs₁, none)) :
    driverLoop build distances fs₁ = (fs₁, none) :=
  driverLoop_idem build distances fs₀ fs₁ (by decide) h

/-- Witness for C8: the stub run, executed twice, reproduces its own
output state. -/
theorem spec_C8_witness :
    driverLoop trivialBuild distances initialFS =
      ((driverLoop trivialBuild distances initialFS).fst, none) ∧
    driverLoop trivialBuild distances ((driverLoop trivialBuild distances initialFS).fst) =
      ((driverLoop trivialBuild distances initialFS).fst, none) :=
  ⟨by decide, spec_C8 trivialBuild initialFS
      ((driverLoop trivialBuild distances initialFS).fst) (by decide)⟩

/-! ### Row and column counting for the rotated planar model -/

theorem countP_odd_range (n : Nat) :
    List.countP (fun i => decide (i % 2 = 1)) (List.range n) = n / 2 := by
  induction n with
  | zero => rfl
  | succ n ih =>
    rw [List.range_succ, List.countP_append, ih, List.countP_singleton]
    by_cases h : n % 2 = 1 <;> simp [h] <;> omega

theorem rowCount_bottom (d : Nat) (hd : d % 2 = 1) (h3 : 3 ≤ d) :
    List.countP (fun (i : Nat) => !isVirtualPlaquette d d ((i : Int) - 1) (((0 : Nat) : Int) - 1))
      (List.range (d + 1)) = (d - 1) / 2 := by
  rw [List.countP_congr (q := fun (i : Nat) => decide (i % 2 = 1) && !decide (i = d)) ?hcongr]
  case hcongr =>
    intro i _
    simp only [isVirtualPlaquette, isZPlaquette, Bool.not_eq_true', Bool.or_eq_false_iff,
      Bool.and_eq_false_iff, Bool.not_eq_false', Bool.not_eq_true, beq_iff_eq,
      beq_eq_false_iff_ne, decide_eq_true_eq, decide_eq_false_iff_not, ne_eq,
      Bool.and_eq_true, Bool.or_eq_true, Nat.cast_zero, not_true, not_false_iff,
      and_false, false_and, and_true, true_and, or_false, false_or]
    omega
  rw [List.range_succ, List.countP_append, List.countP_singleton]
  have h1 : (decide (d % 2 = 1) && !decide (d = d)) = false := by simp
  rw [h1]
  rw [List.countP_congr (q := fun i => decide (i % 2 = 1)) ?hc2]
  case hc2 =>
    intro i hi
    simp only [List.mem_range] at hi
    simp [Nat.ne_of_lt hi]
  rw [countP_odd_range]
  simp
  omega

theorem rowCount_top (d : Nat) (hd : d % 2 = 1) (h3 : 3 ≤ d) :
    List.countP (fun (i : Nat) => !isVirtualPlaquette d d ((i : Int) - 1) ((d : Int) - 1))
      (List.range (d + 1)) = (d - 1) / 2 := by
  rw [List.countP_congr (q := fun (i : Nat) => decide (i % 2 = 0) && !(decide (i = 0) || decide (i = d))) ?hcongr]
  case hcongr =>
    intro i _
    simp only [isVirtualPlaquette, isZPlaquette, Bool.not_eq_true', Bool.or_eq_false_iff,
      Bool.and_eq_false_iff, Bool.not_eq_false', Bool.not_eq_true, beq_iff_eq,
      beq_eq_false_iff_ne, decide_eq_true_eq, decide_eq_false_iff_not, ne_eq,
      Bool.and_eq_true, Bool.or_eq_true, not_true, not_false_iff,
      and_false, false_and, and_true, true_and, or_false, false_or]
    omega
  rw [List.range_succ, List.countP_append, List.countP_singleton]
  have h1 : (decide (d % 2 = 0) && !(decide (d = 0) || decide (d = d))) = false := by
    simp
  rw [h1]
  obtain ⟨m, rfl⟩ : ∃ m, d = m + 1 := ⟨d - 1, by omega⟩
  rw [List.range_succ_eq_map, List.countP_cons, List.countP_map]
  rw [List.countP_congr (q := fun (i : Nat) => decide (i % 2 = 1)) ?hc2]
  case hc2 =>
    intro i hi
    simp only [List.mem_range] at hi
    simp only [Function.comp_apply, Bool.and_eq_true, Bool.not_eq_true', Bool.or_eq_false_iff,
      decide_eq_true_eq, decide_eq_false_iff_not, iff_true, Nat.succ_eq_add_one]
    omega
  rw [countP_odd_range]
  simp

theorem rowCount_middle (d j : Nat) (hd : d % 2 = 1) (h3 : 3 ≤ d)
    (hj0 : j ≠ 0) (hjd : j ≠ d) (hjle : j ≤ d) :
    List.countP (fun (i : Nat) => !isVirtualPlaquette d d ((i : Int) - 1) ((j : Int) - 1))
      (List.range (d + 1)) = d := by
  rw [List.countP_congr (q := fun (i : Nat) => decide ((i + j) % 2 = 0) || (!decide (i = 0) && !decide (i = d))) ?hcongr]
  case hcongr =>
    intro i _
    simp only [isVirtualPlaquette, isZPlaquette, Bool.not_eq_true', Bool.or_eq_false_iff,
      Bool.and_eq_false_iff, Bool.not_eq_false', Bool.not_eq_true, beq_iff_eq,
      beq_eq_false_iff_ne, decide_eq_true_eq, decide_eq_false_iff_not, ne_eq,
      Bool.and_eq_true, Bool.or_eq_true, not_true, not_false_iff,
      and_false, false_and, and_true, true_and, or_false, false_or]
    omega
  rw [List.range_succ, List.countP_append, List.countP_singleton]
  obtain ⟨m, rfl⟩ : ∃ m, d = m + 1 := ⟨d - 1, by omega⟩
  rw [List.range_succ_eq_map, List.countP_cons, List.countP_map]
  rw [List.countP_congr (q := fun (_ : Nat) => true) ?hc2]
  case hc2 =>
    intro i hi
    simp only [List.mem_range] at hi
    simp only [Function.comp_apply, Bool.or_eq_true, Bool.and_eq_true, Bool.not_eq_true',
      decide_eq_true_eq, decide_eq_false_iff_not, iff_true, Nat.succ_eq_add_one]
    omega
  rw [List.countP_true, List.length_range]
  by_cases hp : j % 2 = 0
  · have e1 : ¬((m + 1 + j) % 2 = 0) := by omega
    simp [e1, hp]
  · have e1 : (m + 1 + j) % 2 = 0 := by omega
    simp [e1, hp]

theorem sum_profile (d : Nat) (hd : d % 2 = 1) (h3 : 3 ≤ d) :
    ((List.range (d + 1)).map
      (fun j => if j = 0 ∨ j = d then (d - 1) / 2 else d)).sum = d ^ 2 - 1 := by
  rw [List.range_succ, List.map_append, List.sum_append]
  obtain ⟨m, rfl⟩ : ∃ m, d = m + 1 := ⟨d - 1, by omega⟩
  rw [List.range_succ_eq_map, List.map_cons, List.sum_cons, List.map_map]
  rw [List.map_congr_left (g := fun (_ : Nat) => m + 1) ?hmid]
  case hmid =>
    intro i hi
    simp only [List.mem_range] at hi
    simp only [Function.comp_apply, Nat.succ_eq_add_one]
    rw [if_neg]
    intro hor
    rcases hor with h | h <;> omega
  rw [List.map_const', List.sum_replicate, smul_eq_mul, List.length_range]
  simp only [Nat.add_sub_cancel, true_or, or_true, if_true, if_pos, List.map_cons,
    List.map_nil, List.sum_cons, List.sum_nil]
  obtain ⟨k, rfl⟩ : ∃ k, m = 2 * k := ⟨m / 2, by omega⟩
  have h2 : (2 * k) / 2 = k := by omega
  rw [h2]
  have hsq : (2 * k + 1) ^ 2 = k + 2 * k * (2 * k + 1) + (k + 0) + 1 := by ring
  omega

theorem length_realPlaquetteIndices_aux (d : Nat) :
    (realPlaquetteIndices d d).length =
      ((List.range (d + 1)).map
        (fun (j : Nat) => List.countP
          (fun (i : Nat) => !isVirtualPlaquette d d ((i : Int) - 1) ((j : Int) - 1))
          (List.range (d + 1)))).sum := by
  rw [realPlaquetteIndices, ← List.countP_eq_length_filter]
  simp [allPlaquetteIndices, plaqCoordRange, List.flatMap_def, List.countP_flatten,
    List.map_map, List.countP_map, Function.comp_def]

theorem length_realPlaquetteIndices (d : Nat) (hd : d % 2 = 1) (h3 : 3 ≤ d) :
    (realPlaquetteIndices d d).length = d ^ 2 - 1 := by
  rw [length_realPlaquetteIndices_aux]
  rw [List.map_congr_left
    (g := fun (j : Nat) => if j = 0 ∨ j = d then (d - 1) / 2 else d) ?hrow]
  case hrow =>
    intro j hj
    simp only [List.mem_range] at hj
    beta_reduce
    by_cases hj0 : j = 0
    · subst hj0
      rw [if_pos (Or.inl rfl)]
      exact rowCount_bottom d hd h3
    · by_cases hjd : j = d
      · subst hjd
        rw [if_pos (Or.inr rfl)]
        exact rowCount_top _ hd h3
      · rw [if_neg (by intro hor; rcases hor with h | h <;> omega)]
        exact rowCount_middle d j hd h3 hj0 hjd (by omega)
  exact sum_profile d hd h3

theorem length_filter_not (p : (Int × Int) → Bool) (l : List (Int × Int)) :
    (l.filter p).length + (l.filter (fun a => !p a)).length = l.length := by
  induction l with
  | nil => rfl
  | cons a l ih =>
    cases h : p a <;> simp [List.filter_cons, h] <;> omega

theorem length_plaquetteIndices (rows columns : Nat) :
    (plaquetteIndices rows columns).length = (realPlaquetteIndices rows columns).length := by
  rw [plaquetteIndices, List.length_append]
  exact length_filter_not _ _

theorem length_siteIndices (rows columns : Nat) :
    (siteIndices rows columns).length = rows * columns := by
  rw [siteIndices, List.flatMap_def, List.length_flatten, List.map_map]
  rw [List.map_congr_left (g := fun (_ : Nat) => columns) ?hc]
  case hc =>
    intro y _
    simp
  rw [List.map_const', List.sum_replicate, smul_eq_mul, List.length_range]

theorem length_stabilizerRow (rows columns : Nat) (p : Int × Int) :
    (stabilizerRow rows columns p).length = 2 * (rows * columns) := by
  rw [stabilizerRow, List.length_append, List.length_map, List.length_map, length_siteIndices]
  omega

theorem mem_stabilizerRow_binary (rows columns : Nat) (p : Int × Int) :
    ∀ v ∈ stabilizerRow rows columns p, v = 0 ∨ v = 1 := by
  have hb : ∀ (b : Bool), (if b then (1 : Int) else 0) = 0 ∨ (if b then (1 : Int) else 0) = 1 :=
    fun b => by cases b <;> simp
  intro v hv
  rw [stabilizerRow] at hv
  rcases List.mem_append.mp hv with hv2 | hv2 <;>
    · obtain ⟨s, -, rfl⟩ := List.mem_map.mp hv2
      exact hb _

/-- C10: for every valid odd distance d at least 3, the matrix returned by
`generate_surface_code_pcm` is rectangular with every entry 0 or 1 (binary
symplectic Pauli encoding), has exactly d^2 - 1 rows, and has exactly
2 * d^2 columns — two per physical qubit.  (The collaborator is modelled
from the spec, using the standard rotated planar construction in binary
symplectic form.) -/
theorem spec_C10 (d : Nat) (hd : d % 2 = 1) (h3 : 3 ≤ d) :
    RotatedPlanarCode (d : Int) (d : Int) = .ok ⟨rotatedPlanarStabilizers d d⟩ ∧
    generate_surface_code_pcm RotatedPlanarCode (d : Int) = .ok (rotatedPlanarStabilizers d d) ∧
    (rotatedPlanarStabilizers d d).length = d ^ 2 - 1 ∧
    (∀ r ∈ rotatedPlanarStabilizers d d, r.length = 2 * d ^ 2 ∧ ∀ v ∈ r, v = 0 ∨ v = 1) := by
  have hb : RotatedPlanarCode (d : Int) (d : Int) = .ok ⟨rotatedPlanarStabilizers d d⟩ := by
    unfold RotatedPlanarCode
    rw [if_neg (by omega)]
    simp [Int.toNat_natCast]
  refine ⟨hb, ?_, ?_, ?_⟩
  · rw [generate_surface_code_pcm, hb]
    rfl
  · rw [rotatedPlanarStabilizers, List.length_map, length_plaquetteIndices,
      length_realPlaquetteIndices d hd h3]
  · intro r hr
    rw [rotatedPlanarStabilizers] at hr
    obtain ⟨p, -, rfl⟩ := List.mem_map.mp hr
    constructor
    · rw [length_stabilizerRow, pow_two]
    · exact mem_stabilizerRow_binary d d p

/-- C4: at distance 3 the construction succeeds with a non-empty matrix of
exactly 8 rows — the stabilizer count of the distance-3 rotated planar
code (9 qubits, 8 generators) — and a column count that scales with d^2
(here 2 * 3^2 = 18 columns).  (The collaborator is modelled from the
spec.) -/
theorem spec_C4 :
    generate_surface_code_pcm RotatedPlanarCode 3 = .ok (rotatedPlanarStabilizers 3 3) ∧
    rotatedPlanarStabilizers 3 3 ≠ [] ∧
    (rotatedPlanarStabilizers 3 3).length = 8 ∧
    (∀ r ∈ rotatedPlanarStabilizers 3 3, r.length = 2 * 3 ^ 2) := by
  refine ⟨by decide, by decide, by decide, by decide⟩

/-- Witness for C10 at the concrete distance 3. -/
theorem spec_C10_witness :
    ((3 : Nat) % 2 = 1 ∧ 3 ≤ (3 : Nat)) ∧
    (RotatedPlanarCode ((3 : Nat) : Int) ((3 : Nat) : Int) =
        .ok ⟨rotatedPlanarStabilizers 3 3⟩ ∧
      generate_surface_code_pcm RotatedPlanarCode ((3 : Nat) : Int) =
        .ok (rotatedPlanarStabilizers 3 3) ∧
      (rotatedPlanarStabilizers 3 3).length = 3 ^ 2 - 1 ∧
      (∀ r ∈ rotatedPlanarStabilizers 3 3, r.length = 2 * 3 ^ 2 ∧ ∀ v ∈ r, v = 0 ∨ v = 1)) :=
  ⟨⟨by decide, by decide⟩, spec_C10 3 (by decide) (by decide)⟩

end SurfaceCodeGen

